import Mathlib

/-!
# Verification of `interfaces.py` (ustudio/python-interfaces)

A shallow embedding of the Python 2 module `interfaces.py` and proofs about
its contract-checking engine.

Modelling conventions:
* Function objects are `PyFunc`: identity (`fid`, standing for the `id()` of
  the object, since Python function equality is identity), `__name__`,
  `__doc__`, the three marker flags (`_interfaces_required`,
  `_interfaces_required_classmethod`, `_interfaces_final`, stored as fields),
  and a body (`FuncBehavior`).
* Class `__dict__` values are `PyVal` (functions, `classmethod` objects and a
  few plain values; enough to express truthiness and the checks the module
  performs).  `__doc__` of non-function builtins is modelled as `none`.
* A class is `PyClass`: identity `id`, own `dict`, and `ancestors` — the rest
  of the (already linearized, duplicate-free) method resolution order, each
  ancestor given by its identity and own `__dict__`.  `mro()` is the class
  itself followed by `ancestors`.
* `getattr` on a class resolves through the MRO and binds: a plain function
  becomes an unbound method (`im_self = None` in Python 2), a `classmethod`
  becomes a method bound to the class the lookup started from.
* Fallible Python code is translated into `Except PyErr`; `AttributeError`
  and `TypeError` arising from operations on unexpected values are modelled
  by the corresponding `PyErr` constructors.
-/

/-- The body of a function object: either ordinary user code (unmodelled,
distinguished by a tag) or the `capture_method` closure produced by
`require`, which raises `MissingRequiredAttribute` with the captured
docstring. -/
inductive FuncBehavior where
  | userCode (tag : Nat)
  | raiseRequired (doc : Option String)
deriving Repr, DecidableEq

/-- A Python function object.  `fid` models object identity. -/
structure PyFunc where
  fid : Nat
  fname : String
  doc : Option String
  required : Bool
  requiredCls : Bool
  fnl : Bool
  behavior : FuncBehavior
deriving Repr, DecidableEq

/-- A value stored in a class `__dict__`. -/
inductive PyVal where
  | func (f : PyFunc)
  | cmethod (f : PyFunc)
  | vnone
  | vint (n : Int)
  | vstr (s : String)
  | vlist (l : List String)
deriving Repr, DecidableEq

/-- The result of `getattr` on a class: plain functions come back as
(Python 2) unbound methods, `classmethod` objects as methods bound to the
class on which the lookup was performed. -/
inductive Attr where
  | meth (f : PyFunc)
  | bound (f : PyFunc) (imSelf : Nat)
  | anone
  | aint (n : Int)
  | astr (s : String)
  | alist (l : List String)
deriving Repr, DecidableEq

/-- Errors raised by the module (plus the interpreter-level errors reachable
from its code paths). -/
inductive PyErr where
  | invalidInterface (msg : String)
  | missingRequiredAttribute (msg : Option String)
  | missingRequiredClassMethod (msg : Option String)
  | cannotOverrideFinal (key : String) (base : Nat)
  | attrError
  | typeErr
deriving Repr, DecidableEq

abbrev Dict := List (String × PyVal)

/-- A Python class object: identity, own `__dict__`, and the remainder of
its method resolution order (each entry: identity and own `__dict__`). -/
structure PyClass where
  id : Nat
  dict : Dict
  ancestors : List (Nat × Dict)
deriving Repr, DecidableEq

/-- `cls.mro()`: the class itself first, then its linearized ancestors. -/
def mroC (cls : PyClass) : List (Nat × Dict) :=
  (cls.id, cls.dict) :: cls.ancestors

/-- `d[k]` on an own `__dict__` (first binding wins, mirroring a mapping). -/
def dictGet : Dict → String → Option PyVal
  | [], _ => Option.none
  | (k', v) :: d, k => if k' = k then some v else dictGet d k

/-- `setattr` on a `__dict__`: replace the binding if present, else add it. -/
def setattrD : Dict → String → PyVal → Dict
  | [], k, v => [(k, v)]
  | (k', v') :: d, k, v =>
      if k' = k then (k, v) :: d else (k', v') :: setattrD d k v

/-- `setattr(cls, k, v)` writes to the class's own `__dict__`. -/
def setattrC (cls : PyClass) (k : String) (v : PyVal) : PyClass :=
  { cls with dict := setattrD cls.dict k v }

/-- Raw MRO lookup: first `__dict__` along the MRO that binds the name. -/
def lookupMro : List (Nat × Dict) → String → Option PyVal
  | [], _ => Option.none
  | (_, d) :: rest, k =>
      match dictGet d k with
      | some v => some v
      | Option.none => lookupMro rest k

/-- Descriptor binding performed by class-level `getattr` in Python 2:
functions become unbound methods, classmethods bind to the accessed class. -/
def bindVal (clsId : Nat) : PyVal → Attr
  | .func f => .meth f
  | .cmethod f => .bound f clsId
  | .vnone => .anone
  | .vint n => .aint n
  | .vstr s => .astr s
  | .vlist l => .alist l

/-- `getattr(cls, k)` returning `none` in place of `AttributeError`. -/
def getattrOpt (cls : PyClass) (k : String) : Option Attr :=
  (lookupMro (mroC cls) k).map (bindVal cls.id)

/-- `hasattr(cls, k)`. -/
def hasattrC (cls : PyClass) (k : String) : Bool :=
  (getattrOpt cls k).isSome

/-- Lexicographic comparison on code points (the order `sorted` uses). -/
def charListLtB : List Char → List Char → Bool
  | [], [] => false
  | [], _ :: _ => true
  | _ :: _, [] => false
  | a :: as, b :: bs =>
      if a.val < b.val then true
      else if b.val < a.val then false
      else charListLtB as bs

/-- Comparison used to present `dir` in sorted order (`a ≤ b` on strings). -/
def strLeB (a b : String) : Bool :=
  a == b || charListLtB a.data b.data

/-- Insert a string into a sorted list. -/
def insertSorted (s : String) : List String → List String
  | [] => [s]
  | t :: ts => if strLeB s t then s :: t :: ts else t :: insertSorted s ts

/-- Sort a list of strings. -/
def sortStrings : List String → List String
  | [] => []
  | t :: ts => insertSorted t (sortStrings ts)

/-- Remove duplicates (the `set(...)` step of `dir`). -/
def dedupStrings : List String → List String
  | [] => []
  | x :: xs => if x ∈ xs then dedupStrings xs else x :: dedupStrings xs

/-- All names bound somewhere along an MRO. -/
def mroKeys : List (Nat × Dict) → List String
  | [] => []
  | p :: rest => p.2.map Prod.fst ++ mroKeys rest

/-- `dir(cls)`: the sorted, duplicate-free names visible on the class.
(The attributes of `object` and of the metaclass are not modelled.) -/
def dirC (cls : PyClass) : List String :=
  sortStrings (dedupStrings (mroKeys (mroC cls)))

/-- Python truthiness of a `__dict__` value. -/
def valTruthy : PyVal → Bool
  | .func _ => true
  | .cmethod _ => true
  | .vnone => false
  | .vint n => n != 0
  | .vstr s => s ≠ ""
  | .vlist l => l ≠ []

/-- Python truthiness of a `getattr` result (methods are always truthy). -/
def attrTruthy : Attr → Bool
  | .meth _ => true
  | .bound _ _ => true
  | .anone => false
  | .aint n => n != 0
  | .astr s => s ≠ ""
  | .alist l => l ≠ []

/-- `getattr(x, "_interfaces_required", False)`: Python 2 methods proxy
attribute reads to their underlying function; other values lack the flag. -/
def attrRequiredFlag : Option Attr → Bool
  | some (.meth f) => f.required
  | some (.bound f _) => f.required
  | _ => false

/-- `getattr(x, "_interfaces_required_classmethod", False)`. -/
def attrRequiredClsFlag : Option Attr → Bool
  | some (.meth f) => f.requiredCls
  | some (.bound f _) => f.requiredCls
  | _ => false

/-- `getattr(v, "_interfaces_final", False)` on a raw `__dict__` value:
functions carry the flag as set by `final`; a `classmethod` object does not
proxy attribute reads to its wrapped function, and plain values have no
such attribute. -/
def valFinalFlag : PyVal → Bool
  | .func f => f.fnl
  | _ => false

/-- `x.__doc__` of a `getattr` result (docstrings of builtin non-function
values are not modelled and yield `none`). -/
def attrDoc : Attr → Option String
  | .meth f => f.doc
  | .bound f _ => f.doc
  | _ => Option.none

/-- `callable(x)` for a `getattr` result (only methods are callable among
the modelled values). -/
def attrCallable : Option Attr → Bool
  | some (.meth _) => true
  | some (.bound _ _) => true
  | _ => false

/-- Python `==` on `getattr` results: methods compare by `im_func` identity
and `im_self`; plain values compare structurally; mixed kinds are unequal. -/
def attrEqB : Attr → Attr → Bool
  | .meth f, .meth g => f.fid == g.fid
  | .bound f i, .bound g j => f.fid == g.fid && i == j
  | .anone, .anone => true
  | .aint n, .aint m => n == m
  | .astr s, .astr t => s == t
  | .alist l, .alist m => l == m
  | _, _ => false

/-- `x.im_self`: `None` for a Python 2 unbound method, the bound class for a
bound classmethod; an `AttributeError` for anything else. -/
def attrImSelf : Attr → Except PyErr (Option Nat)
  | .meth _ => .ok Option.none
  | .bound _ i => .ok (some i)
  | _ => .error .attrError

/-- `k in x` (membership test; on a string it is the substring test). -/
def attrContains (a : Attr) (k : String) : Except PyErr Bool :=
  match a with
  | .alist l => .ok (decide (k ∈ l))
  | .astr s => .ok (k == "" || decide ((s.splitOn k).length ≥ 2))
  | _ => .error .typeErr

def REQUIRED_ATTR : String := "_interfaces_required"
def REQUIRED_CLASSMETHOD : String := "_interfaces_required_classmethod"

/-- `require`: wraps the method in `capture_method` (which raises
`MissingRequiredAttribute` with the captured docstring), copies `__name__`,
`__doc__` and the existing flag dictionary over via `functools.wraps`, and
sets the required flag on the fresh wrapper.  `newFid` is the identity of
the freshly created wrapper object. -/
def require (newFid : Nat) (method : PyFunc) : PyFunc :=
  { fid := newFid
    fname := method.fname
    doc := method.doc
    required := true
    requiredCls := method.requiredCls
    fnl := method.fnl
    behavior := .raiseRequired method.doc }

/-- `require_classmethod`: `require`, then set the classmethod flag on the
wrapper. -/
def require_classmethod (newFid : Nat) (method : PyFunc) : PyFunc :=
  let wrapped := require newFid method
  { wrapped with requiredCls := true }

/-- `final`: sets the final flag on the function object itself and returns
it (same `fid`: no wrapper is created). -/
def final (method : PyFunc) : PyFunc :=
  { method with fnl := true }

/-- Invoking a function object with positional arguments.  The body of
ordinary user code is not modelled (`none`); the `capture_method` wrapper
raises `MissingRequiredAttribute` with its captured docstring — unless it is
called with no arguments at all, in which case Python rejects the call
before the body runs (`capture_method` has a mandatory `instance`
parameter). -/
def callFunc (f : PyFunc) (args : List PyVal) : Option (Except PyErr PyVal) :=
  match f.behavior with
  | .userCode _ => Option.none
  | .raiseRequired d =>
      match args with
      | [] => some (.error .typeErr)
      | _ :: _ => some (.error (.missingRequiredAttribute d))

/-- One step of `define`'s scan: look the name up on the class and append it
to whichever bookkeeping lists its flags call for. -/
def appendName (cls : PyClass) (listKey : String) (k : String) : PyClass :=
  match getattrOpt cls listKey with
  | some (.alist l) => setattrC cls listKey (.vlist (l ++ [k]))
  | _ => cls

def defineStep (cls : PyClass) (k : String) : PyClass :=
  let attrib := getattrOpt cls k
  let cls :=
    if attrRequiredClsFlag attrib then appendName cls REQUIRED_CLASSMETHOD k
    else cls
  if attrRequiredFlag attrib then appendName cls REQUIRED_ATTR k else cls

/-- `define`: attach the two (fresh, empty) bookkeeping lists, then scan
every name in `dir(cls)` and record the flagged ones. -/
def define (cls : PyClass) : PyClass :=
  let cls1 := setattrC cls REQUIRED_ATTR (.vlist [])
  let cls2 := setattrC cls1 REQUIRED_CLASSMETHOD (.vlist [])
  (dirC cls2).foldl defineStep cls2

/-- The `required_attrs` bookkeeping list of a class (empty if absent or not
a list — a convenience accessor for stating properties). -/
def reqNames (cls : PyClass) : List String :=
  match getattrOpt cls REQUIRED_ATTR with
  | some (.alist l) => l
  | _ => []

/-- The `required_classmethods` bookkeeping list of a class. -/
def rcNames (cls : PyClass) : List String :=
  match getattrOpt cls REQUIRED_CLASSMETHOD with
  | some (.alist l) => l
  | _ => []

/-- The interface's own placeholder for a name, as the checker resolves it
(`getattr(interface, attribute_key)`); `anone` when unresolvable (that case
raises an `AttributeError` in the checker itself). -/
def placeholderAttr (interface : PyClass) (k : String) : Attr :=
  (getattrOpt interface k).getD .anone

/-- `attribute.__doc__` of the interface placeholder for a name. -/
def phDoc (interface : PyClass) (k : String) : Option String :=
  attrDoc (placeholderAttr interface k)

/-- `getattr(cls, attribute_key, None) or attribute`: the attribute the
checker actually inspects — the candidate's, unless absent or falsy, in
which case the interface's placeholder. -/
def clsAttributeOf (interface cls : PyClass) (k : String) : Attr :=
  match getattrOpt cls k with
  | some a => if attrTruthy a then a else placeholderAttr interface k
  | Option.none => placeholderAttr interface k

/-- The body of `_check_required`'s loop for one required name. -/
def checkReqKey (interface cls : PyClass) (rcs : Attr) (k : String) :
    Except PyErr Unit :=
  match attrContains rcs k with
  | .error e => .error e
  | .ok is_classmethod =>
    match getattrOpt interface k with
    | Option.none => .error .attrError
    | some attrib =>
      let cls_attribute :=
        match getattrOpt cls k with
        | some a => if attrTruthy a then a else attrib
        | Option.none => attrib
      let docstring := attrDoc attrib
      if is_classmethod then
        if attrEqB attrib cls_attribute then
          .error (.missingRequiredClassMethod docstring)
        else
          match attrImSelf cls_attribute with
          | .error e => .error e
          | .ok s =>
              if s = some cls.id then .ok ()
              else .error (.missingRequiredClassMethod docstring)
      else
        if attrTruthy cls_attribute && !attrRequiredFlag (some cls_attribute) then
          .ok ()
        else .error (.missingRequiredAttribute docstring)

/-- `_check_required`'s loop over the interface's required list. -/
def goReq (interface cls : PyClass) (rcs : Attr) : List String →
    Except PyErr Unit
  | [] => .ok ()
  | k :: ks =>
      match checkReqKey interface cls rcs k with
      | .ok () => goReq interface cls rcs ks
      | .error e => .error e

/-- `_check_required(interface, cls)`. -/
def check_required (interface cls : PyClass) : Except PyErr Unit :=
  if hasattrC interface REQUIRED_ATTR = false then
    .error (.invalidInterface
      "An interface class must have a `_interfaces_required` list attribute.")
  else
    match getattrOpt interface REQUIRED_CLASSMETHOD with
    | Option.none => .error .attrError
    | some rcs =>
      match getattrOpt interface REQUIRED_ATTR with
      | some (.alist req) => goReq interface cls rcs req
      | some _ => .error .typeErr
      | Option.none => .error .attrError

/-- `checkReqKey` with the `required_classmethods` attribute looked up the
way `_check_required` does it — the per-name behaviour of the Required
Checker. -/
def checkOne (interface cls : PyClass) (k : String) : Except PyErr Unit :=
  match getattrOpt interface REQUIRED_CLASSMETHOD with
  | Option.none => .error .attrError
  | some rcs => checkReqKey interface cls rcs k

/-- Lines 120–135 of `_check_final`: the reversed MRO of `cls`, with the
interface prepended as most ancestral when one is supplied and not already
in the chain. -/
def finalChain (interface : Option PyClass) (cls : PyClass) :
    List (Nat × Dict) :=
  let lookup_classes := (mroC cls).reverse
  match interface with
  | Option.none => lookup_classes
  | some i =>
      if lookup_classes.any (fun p => p.1 == i.id) then lookup_classes
      else (i.id, i.dict) :: lookup_classes

/-- The inner walk of `_check_final` for one attribute name: skip classes
that do not bind the name (or bind it to a falsy value); the first final
definition arms the check; any later definition fails. -/
def walkFinal (k : String) : List (Nat × Dict) → Bool → Except PyErr Unit
  | [], _ => .ok ()
  | (bid, d) :: rest, is_finaled =>
      match dictGet d k with
      | Option.none => walkFinal k rest is_finaled
      | some v =>
          if valTruthy v = false then walkFinal k rest is_finaled
          else if is_finaled then .error (.cannotOverrideFinal k bid)
          else walkFinal k rest (valFinalFlag v)

/-- The outer loop of `_check_final` over `dir(cls)`, skipping
non-callables. -/
def goFinalKeys (interface : Option PyClass) (cls : PyClass) :
    List String → Except PyErr Unit
  | [] => .ok ()
  | k :: ks =>
      if attrCallable (getattrOpt cls k) = false then
        goFinalKeys interface cls ks
      else
        match walkFinal k (finalChain interface cls) false with
        | .ok () => goFinalKeys interface cls ks
        | .error e => .error e

/-- `_check_final(interface, cls)` (`interface = none` models passing
`None`). -/
def check_final (interface : Option PyClass) (cls : PyClass) :
    Except PyErr Unit :=
  goFinalKeys interface cls (dirC cls)

/-- The loop inside `implement`'s wrapper. -/
def implementGo : List PyClass → PyClass → Except PyErr Unit
  | [], _ => .ok ()
  | i :: is, cls =>
      match check_required i cls with
      | .error e => .error e
      | .ok () =>
          match check_final (some i) cls with
          | .error e => .error e
          | .ok () => implementGo is cls

/-- `implement(*interfaces)(cls)`. -/
def implement (interfaces : List PyClass) (cls : PyClass) :
    Except PyErr PyClass :=
  match implementGo interfaces cls with
  | .ok () => .ok cls
  | .error e => .error e

/-- `strict(cls)`. -/
def strict (cls : PyClass) : Except PyErr PyClass :=
  match check_final Option.none cls with
  | .ok () => .ok cls
  | .error e => .error e

/-- Does a result look like a raised `MissingRequiredAttribute`? -/
def isMRAErr : Except PyErr PyClass → Bool
  | .error (.missingRequiredAttribute _) => true
  | _ => false

/-- Does a result look like a raised `InvalidInterface`? -/
def isIIErr : Except PyErr PyClass → Bool
  | .error (.invalidInterface _) => true
  | _ => false

/-! ### Concrete classes used to instantiate the theorems

These mirror the shapes exercised by the repository's own test suite: a
`StringInterface`-style interface with one required method, a
`ClassMethodRequired`-style interface, and small candidate classes. -/

def execDoc : String := "Execute must be implemented with an 'argument' option."

/-- The undecorated `execute(self, argument)` placeholder body. -/
def wBaseExec : PyFunc := ⟨1, "execute", some execDoc, false, false, false, .userCode 1⟩

/-- `@interfaces.require` applied to it (object identity 2). -/
def wPhExec : PyFunc := require 2 wBaseExec

/-- The interface class body before `@interfaces.define`. -/
def wI0 : PyClass := ⟨10, [("execute", .func wPhExec)], []⟩

/-- A concrete implementation of `execute`. -/
def wImplFn : PyFunc := ⟨3, "execute", some "impl", false, false, false, .userCode 3⟩

/-- A conformant candidate class. -/
def wCex : PyClass := ⟨20, [("execute", .func wImplFn)], []⟩

/-- A candidate class with no attributes at all. -/
def wCnone : PyClass := ⟨21, [], []⟩

/-- A candidate that binds `execute` to `None` (falsy). -/
def wCfalsy : PyClass := ⟨34, [("execute", .vnone)], []⟩

/-- `ClassMethodRequired`-style placeholder: `@interfaces.require_classmethod`
applied to `foo(cls)` (fresh wrapper identity 5). -/
def wCmPh : PyFunc := require_classmethod 5 ⟨4, "foo", some "Foo doc.", false, false, false, .userCode 4⟩

/-- The classmethod interface body before `define`. -/
def wI0cm : PyClass := ⟨11, [("foo", .func wCmPh)], []⟩

/-- Candidate defining `foo` as an ordinary instance method. -/
def wCcmInst : PyClass :=
  ⟨23, [("foo", .func ⟨6, "foo", Option.none, false, false, false, .userCode 6⟩)], []⟩

/-- Candidate defining `foo` as a genuine classmethod. -/
def wCcmGood : PyClass :=
  ⟨24, [("foo", .cmethod ⟨7, "foo", Option.none, false, false, false, .userCode 7⟩)], []⟩

/-- Interface body with a required classmethod `a` and a required ordinary
method `b`; `a` sorts before `b`, so its check runs first. -/
def ceI0 : PyClass :=
  ⟨35, [("a", .func (require_classmethod 16 ⟨17, "a", some "docA", false, false, false, .userCode 17⟩)),
        ("b", .func (require 18 ⟨19, "b", some "docB", false, false, false, .userCode 19⟩))], []⟩

/-- A class carrying `required_attrs` but not `required_classmethods` (was
never produced by `define`). -/
def c6X : PyClass := ⟨33, [(REQUIRED_ATTR, .vlist [])], []⟩

/-- A plain function object used for the marker-decorator claims. -/
def wFn : PyFunc := ⟨40, "run", some "Run doc.", false, false, false, .userCode 40⟩

/-- An interface with a final method `test`, as in the tests' `FinalInterface`. -/
def wIfin0 : PyClass :=
  ⟨12, [("test", .func (final ⟨8, "test", some "t", false, false, false, .userCode 8⟩))], []⟩

/-- A candidate redefining the final `test` without inheriting the interface. -/
def wCbad : PyClass :=
  ⟨26, [("test", .func ⟨9, "test", Option.none, false, false, false, .userCode 9⟩)], []⟩

/-! ### Statement vocabulary -/

/-- `p` directly defines `k` in its own `__dict__`. -/
def definesD (p : Nat × Dict) (k : String) : Prop :=
  ∃ w, dictGet p.2 k = some w

/-- `p` directly defines `k` under the final flag. -/
def finalDefD (p : Nat × Dict) (k : String) : Prop :=
  ∃ v, dictGet p.2 k = some v ∧ valFinalFlag v = true

/-- `p` directly defines `k` with a truthy value. -/
def truthyDefD (p : Nat × Dict) (k : String) : Prop :=
  ∃ v, dictGet p.2 k = some v ∧ valTruthy v = true

/-- Two positions of a list, the first strictly before the second, whose
elements satisfy `P` and `Q` respectively. -/
def pairIdx (P Q : (Nat × Dict) → Prop) (l : List (Nat × Dict)) : Prop :=
  ∃ i j x y, i < j ∧ l.get? i = some x ∧ l.get? j = some y ∧ P x ∧ Q y

/-- The relation a fold step of `define` keeps with the class it started
from: same identity and ancestry, same own `__dict__` outside the two
bookkeeping names, and both bookkeeping names bound to lists. -/
def clsInv (base c : PyClass) : Prop :=
  c.id = base.id ∧ c.ancestors = base.ancestors ∧
  (∀ k, k ≠ REQUIRED_ATTR → k ≠ REQUIRED_CLASSMETHOD →
    dictGet c.dict k = dictGet base.dict k) ∧
  (∃ l, dictGet c.dict REQUIRED_ATTR = some (.vlist l)) ∧
  (∃ l, dictGet c.dict REQUIRED_CLASSMETHOD = some (.vlist l))

/-- The class `define` scans: the input with the two bookkeeping lists
attached, empty. -/
def definePre (cls : PyClass) : PyClass :=
  setattrC (setattrC cls REQUIRED_ATTR (.vlist [])) REQUIRED_CLASSMETHOD
    (.vlist [])

/-! ### Basic lemmas about dictionaries, lookup and `dir` -/

theorem dictGet_setattrD (d : Dict) (k k' : String) (v : PyVal) :
    dictGet (setattrD d k v) k' = if k = k' then some v else dictGet d k' := by
  induction d with
  | nil => simp [setattrD, dictGet]
  | cons p d ih =>
      obtain ⟨k₀, v₀⟩ := p
      by_cases h0 : k₀ = k
      · subst h0
        by_cases h1 : k₀ = k'
        · subst h1; simp [setattrD, dictGet]
        · simp [setattrD, dictGet, h1, Ne.symm h1]
      · by_cases h1 : k₀ = k'
        · subst h1
          simp [setattrD, dictGet, h0, Ne.symm h0]
        · simp [setattrD, dictGet, h0, h1, ih]

theorem dictGet_isSome_iff (d : Dict) (k : String) :
    (dictGet d k).isSome = true ↔ k ∈ d.map Prod.fst := by
  induction d with
  | nil => simp [dictGet]
  | cons p d ih =>
      obtain ⟨k₀, v₀⟩ := p
      by_cases h : k₀ = k
      · subst h; simp [dictGet]
      · simp [dictGet, h, ih, Ne.symm h]

theorem lookupMro_isSome_iff (L : List (Nat × Dict)) (k : String) :
    (lookupMro L k).isSome = true ↔ ∃ p ∈ L, (dictGet p.2 k).isSome = true := by
  induction L with
  | nil => simp [lookupMro]
  | cons p L ih =>
      obtain ⟨i, d⟩ := p
      cases h : dictGet d k with
      | none => simp [lookupMro, h, ih]
      | some v =>
          simp only [lookupMro, h]
          constructor
          · intro _; exact ⟨(i, d), List.mem_cons_self _ _, by simp [h]⟩
          · intro _; rfl

theorem mem_mroKeys_iff (L : List (Nat × Dict)) (k : String) :
    k ∈ mroKeys L ↔ ∃ p ∈ L, k ∈ p.2.map Prod.fst := by
  induction L with
  | nil => simp [mroKeys]
  | cons p L ih => simp [mroKeys, List.mem_append, ih]

theorem mem_insertSorted (s a : String) (l : List String) :
    a ∈ insertSorted s l ↔ a = s ∨ a ∈ l := by
  induction l with
  | nil => simp [insertSorted]
  | cons t ts ih =>
      by_cases h : strLeB s t = true
      · simp [insertSorted, h]
      · simp only [insertSorted, if_neg h, List.mem_cons, ih]
        tauto

theorem mem_sortStrings (a : String) (l : List String) :
    a ∈ sortStrings l ↔ a ∈ l := by
  induction l with
  | nil => simp [sortStrings]
  | cons t ts ih => simp [sortStrings, mem_insertSorted, ih]

theorem mem_dedupStrings (a : String) (l : List String) :
    a ∈ dedupStrings l ↔ a ∈ l := by
  induction l with
  | nil => simp [dedupStrings]
  | cons t ts ih =>
      by_cases h : t ∈ ts
      · simp only [dedupStrings, if_pos h, ih, List.mem_cons]
        constructor
        · exact Or.inr
        · rintro (rfl | hm)
          · exact h
          · exact hm
      · simp [dedupStrings, if_neg h, ih]

theorem mem_dirC_iff (cls : PyClass) (k : String) :
    k ∈ dirC cls ↔ (lookupMro (mroC cls) k).isSome = true := by
  rw [dirC, mem_sortStrings, mem_dedupStrings, mem_mroKeys_iff,
    lookupMro_isSome_iff]
  constructor
  · rintro ⟨p, hp, hm⟩
    exact ⟨p, hp, (dictGet_isSome_iff _ _).2 hm⟩
  · rintro ⟨p, hp, hm⟩
    exact ⟨p, hp, (dictGet_isSome_iff _ _).1 hm⟩

theorem getattrOpt_isSome_iff (cls : PyClass) (k : String) :
    (getattrOpt cls k).isSome = true ↔ (lookupMro (mroC cls) k).isSome = true := by
  unfold getattrOpt
  cases lookupMro (mroC cls) k <;> simp

theorem mem_dirC_iff_getattr (cls : PyClass) (k : String) :
    k ∈ dirC cls ↔ (getattrOpt cls k).isSome = true := by
  rw [mem_dirC_iff, getattrOpt_isSome_iff]

/-! ### Characterizing `define` -/

theorem RA_ne_RC : REQUIRED_ATTR ≠ REQUIRED_CLASSMETHOD := by decide

theorem getattrOpt_own (c : PyClass) (k : String) (v : PyVal)
    (h : dictGet c.dict k = some v) :
    getattrOpt c k = some (bindVal c.id v) := by
  simp [getattrOpt, mroC, lookupMro, h]

theorem getattrOpt_congr (c c' : PyClass) (k : String) (hid : c.id = c'.id)
    (hanc : c.ancestors = c'.ancestors)
    (hd : dictGet c.dict k = dictGet c'.dict k) :
    getattrOpt c k = getattrOpt c' k := by
  simp only [getattrOpt, mroC, lookupMro, hd, hanc, hid]

theorem getattrOpt_of_inv (base c : PyClass) (h : clsInv base c) (k : String)
    (h1 : k ≠ REQUIRED_ATTR) (h2 : k ≠ REQUIRED_CLASSMETHOD) :
    getattrOpt c k = getattrOpt base k :=
  getattrOpt_congr c base k h.1 h.2.1 (h.2.2.1 k h1 h2)

theorem flags_of_inv (base c : PyClass) (h : clsInv base c)
    (hbA : ∃ l, dictGet base.dict REQUIRED_ATTR = some (.vlist l))
    (hbC : ∃ l, dictGet base.dict REQUIRED_CLASSMETHOD = some (.vlist l))
    (k : String) :
    attrRequiredFlag (getattrOpt c k) = attrRequiredFlag (getattrOpt base k) ∧
    attrRequiredClsFlag (getattrOpt c k) =
      attrRequiredClsFlag (getattrOpt base k) := by
  by_cases hk1 : k = REQUIRED_ATTR
  · subst hk1
    obtain ⟨la, hca⟩ := h.2.2.2.1
    obtain ⟨lb, hba⟩ := hbA
    rw [getattrOpt_own c _ _ hca, getattrOpt_own base _ _ hba]
    simp [bindVal, attrRequiredFlag, attrRequiredClsFlag]
  · by_cases hk2 : k = REQUIRED_CLASSMETHOD
    · subst hk2
      obtain ⟨la, hca⟩ := h.2.2.2.2
      obtain ⟨lb, hba⟩ := hbC
      rw [getattrOpt_own c _ _ hca, getattrOpt_own base _ _ hba]
      simp [bindVal, attrRequiredFlag, attrRequiredClsFlag]
    · rw [getattrOpt_of_inv base c h k hk1 hk2]
      exact ⟨rfl, rfl⟩

theorem setattrC_id (c : PyClass) (k : String) (v : PyVal) :
    (setattrC c k v).id = c.id := rfl

theorem setattrC_anc (c : PyClass) (k : String) (v : PyVal) :
    (setattrC c k v).ancestors = c.ancestors := rfl

theorem appendName_RA (c : PyClass) (la : List String)
    (h : dictGet c.dict REQUIRED_ATTR = some (.vlist la)) (k : String) :
    appendName c REQUIRED_ATTR k =
      setattrC c REQUIRED_ATTR (.vlist (la ++ [k])) := by
  simp [appendName, getattrOpt_own c _ _ h, bindVal]

theorem appendName_RC (c : PyClass) (lc : List String)
    (h : dictGet c.dict REQUIRED_CLASSMETHOD = some (.vlist lc)) (k : String) :
    appendName c REQUIRED_CLASSMETHOD k =
      setattrC c REQUIRED_CLASSMETHOD (.vlist (lc ++ [k])) := by
  simp [appendName, getattrOpt_own c _ _ h, bindVal]

theorem inv_setattr_RA (base c : PyClass) (h : clsInv base c)
    (l : List String) :
    clsInv base (setattrC c REQUIRED_ATTR (.vlist l)) := by
  obtain ⟨h1, h2, h3, h4, h5⟩ := h
  refine ⟨h1, h2, ?_, ?_, ?_⟩
  · intro k hk1 hk2
    rw [show (setattrC c REQUIRED_ATTR (.vlist l)).dict =
        setattrD c.dict REQUIRED_ATTR (.vlist l) from rfl,
      dictGet_setattrD, if_neg (fun he => hk1 he.symm)]
    exact h3 k hk1 hk2
  · exact ⟨l, by rw [show (setattrC c REQUIRED_ATTR (.vlist l)).dict =
      setattrD c.dict REQUIRED_ATTR (.vlist l) from rfl, dictGet_setattrD,
      if_pos rfl]⟩
  · obtain ⟨lc, hlc⟩ := h5
    exact ⟨lc, by rw [show (setattrC c REQUIRED_ATTR (.vlist l)).dict =
      setattrD c.dict REQUIRED_ATTR (.vlist l) from rfl, dictGet_setattrD,
      if_neg RA_ne_RC]; exact hlc⟩

theorem inv_setattr_RC (base c : PyClass) (h : clsInv base c)
    (l : List String) :
    clsInv base (setattrC c REQUIRED_CLASSMETHOD (.vlist l)) := by
  obtain ⟨h1, h2, h3, h4, h5⟩ := h
  refine ⟨h1, h2, ?_, ?_, ?_⟩
  · intro k hk1 hk2
    rw [show (setattrC c REQUIRED_CLASSMETHOD (.vlist l)).dict =
        setattrD c.dict REQUIRED_CLASSMETHOD (.vlist l) from rfl,
      dictGet_setattrD, if_neg (fun he => hk2 he.symm)]
    exact h3 k hk1 hk2
  · obtain ⟨la, hla⟩ := h4
    exact ⟨la, by rw [show (setattrC c REQUIRED_CLASSMETHOD (.vlist l)).dict =
      setattrD c.dict REQUIRED_CLASSMETHOD (.vlist l) from rfl, dictGet_setattrD,
      if_neg (fun he => RA_ne_RC he.symm)]; exact hla⟩
  · exact ⟨l, by rw [show (setattrC c REQUIRED_CLASSMETHOD (.vlist l)).dict =
      setattrD c.dict REQUIRED_CLASSMETHOD (.vlist l) from rfl, dictGet_setattrD,
      if_pos rfl]⟩

theorem defineStep_char (base c : PyClass) (k : String) (h : clsInv base c)
    (la lc : List String)
    (hA : dictGet c.dict REQUIRED_ATTR = some (.vlist la))
    (hC : dictGet c.dict REQUIRED_CLASSMETHOD = some (.vlist lc))
    (hbA : ∃ l, dictGet base.dict REQUIRED_ATTR = some (.vlist l))
    (hbC : ∃ l, dictGet base.dict REQUIRED_CLASSMETHOD = some (.vlist l)) :
    clsInv base (defineStep c k) ∧
    dictGet (defineStep c k).dict REQUIRED_ATTR =
      some (.vlist (la ++
        (if attrRequiredFlag (getattrOpt base k) then [k] else []))) ∧
    dictGet (defineStep c k).dict REQUIRED_CLASSMETHOD =
      some (.vlist (lc ++
        (if attrRequiredClsFlag (getattrOpt base k) then [k] else []))) := by
  obtain ⟨hfR, hfC⟩ := flags_of_inv base c h hbA hbC k
  simp only [defineStep]
  rw [hfR, hfC]
  by_cases hrc : attrRequiredClsFlag (getattrOpt base k) = true
  · rw [if_pos hrc, appendName_RC c lc hC k]
    have hA' : dictGet (setattrC c REQUIRED_CLASSMETHOD
        (.vlist (lc ++ [k]))).dict REQUIRED_ATTR = some (.vlist la) := by
      rw [show (setattrC c REQUIRED_CLASSMETHOD (.vlist (lc ++ [k]))).dict =
        setattrD c.dict REQUIRED_CLASSMETHOD (.vlist (lc ++ [k])) from rfl,
        dictGet_setattrD, if_neg (fun he => RA_ne_RC he.symm)]
      exact hA
    have hC' : dictGet (setattrC c REQUIRED_CLASSMETHOD
        (.vlist (lc ++ [k]))).dict REQUIRED_CLASSMETHOD =
        some (.vlist (lc ++ [k])) := by
      rw [show (setattrC c REQUIRED_CLASSMETHOD (.vlist (lc ++ [k]))).dict =
        setattrD c.dict REQUIRED_CLASSMETHOD (.vlist (lc ++ [k])) from rfl,
        dictGet_setattrD, if_pos rfl]
    have hinv' := inv_setattr_RC base c h (lc ++ [k])
    by_cases hr : attrRequiredFlag (getattrOpt base k) = true
    · rw [if_pos hr, appendName_RA _ la hA' k]
      refine ⟨inv_setattr_RA base _ hinv' (la ++ [k]), ?_, ?_⟩
      · rw [show (setattrC _ REQUIRED_ATTR (.vlist (la ++ [k]))).dict =
          setattrD _ REQUIRED_ATTR (.vlist (la ++ [k])) from rfl,
          dictGet_setattrD, if_pos rfl, if_pos hr]
      · rw [show (setattrC _ REQUIRED_ATTR (.vlist (la ++ [k]))).dict =
          setattrD _ REQUIRED_ATTR (.vlist (la ++ [k])) from rfl,
          dictGet_setattrD, if_neg RA_ne_RC, hC', if_pos hrc]
    · rw [if_neg hr]
      refine ⟨hinv', ?_, ?_⟩
      · rw [hA', if_neg hr]; simp
      · rw [hC', if_pos hrc]
  · rw [if_neg hrc]
    by_cases hr : attrRequiredFlag (getattrOpt base k) = true
    · rw [if_pos hr, appendName_RA c la hA k]
      refine ⟨inv_setattr_RA base c h (la ++ [k]), ?_, ?_⟩
      · rw [show (setattrC c REQUIRED_ATTR (.vlist (la ++ [k]))).dict =
          setattrD c.dict REQUIRED_ATTR (.vlist (la ++ [k])) from rfl,
          dictGet_setattrD, if_pos rfl, if_pos hr]
      · rw [show (setattrC c REQUIRED_ATTR (.vlist (la ++ [k]))).dict =
          setattrD c.dict REQUIRED_ATTR (.vlist (la ++ [k])) from rfl,
          dictGet_setattrD, if_neg RA_ne_RC, hC, if_neg hrc]
        simp
    · rw [if_neg hr]
      refine ⟨h, ?_, ?_⟩
      · rw [hA, if_neg hr]; simp
      · rw [hC, if_neg hrc]; simp

theorem foldDefine_char (base : PyClass)
    (hbA : ∃ l, dictGet base.dict REQUIRED_ATTR = some (.vlist l))
    (hbC : ∃ l, dictGet base.dict REQUIRED_CLASSMETHOD = some (.vlist l)) :
    ∀ (ks : List String) (c : PyClass) (la lc : List String),
    clsInv base c →
    dictGet c.dict REQUIRED_ATTR = some (.vlist la) →
    dictGet c.dict REQUIRED_CLASSMETHOD = some (.vlist lc) →
    clsInv base (ks.foldl defineStep c) ∧
    dictGet (ks.foldl defineStep c).dict REQUIRED_ATTR =
      some (.vlist (la ++
        ks.filter (fun k => attrRequiredFlag (getattrOpt base k)))) ∧
    dictGet (ks.foldl defineStep c).dict REQUIRED_CLASSMETHOD =
      some (.vlist (lc ++
        ks.filter (fun k => attrRequiredClsFlag (getattrOpt base k)))) := by
  intro ks
  induction ks with
  | nil =>
      intro c la lc hinv hA hC
      simpa using ⟨hinv, hA, hC⟩
  | cons k ks ih =>
      intro c la lc hinv hA hC
      obtain ⟨hinv', hA', hC'⟩ :=
        defineStep_char base c k hinv la lc hA hC hbA hbC
      obtain ⟨hinv'', hA'', hC''⟩ := ih (defineStep c k) _ _ hinv' hA' hC'
      simp only [List.foldl_cons]
      refine ⟨hinv'', ?_, ?_⟩
      · rw [hA'', List.filter_cons]
        by_cases hr : attrRequiredFlag (getattrOpt base k) = true <;>
          simp [hr]
      · rw [hC'', List.filter_cons]
        by_cases hr : attrRequiredClsFlag (getattrOpt base k) = true <;>
          simp [hr]

theorem definePre_dict_RA (cls : PyClass) :
    dictGet (definePre cls).dict REQUIRED_ATTR = some (.vlist []) := by
  rw [show (definePre cls).dict =
    setattrD (setattrD cls.dict REQUIRED_ATTR (.vlist []))
      REQUIRED_CLASSMETHOD (.vlist []) from rfl,
    dictGet_setattrD, if_neg (fun he => RA_ne_RC he.symm),
    dictGet_setattrD, if_pos rfl]

theorem definePre_dict_RC (cls : PyClass) :
    dictGet (definePre cls).dict REQUIRED_CLASSMETHOD = some (.vlist []) := by
  rw [show (definePre cls).dict =
    setattrD (setattrD cls.dict REQUIRED_ATTR (.vlist []))
      REQUIRED_CLASSMETHOD (.vlist []) from rfl,
    dictGet_setattrD, if_pos rfl]

theorem definePre_inv (cls : PyClass) : clsInv (definePre cls) (definePre cls) :=
  ⟨rfl, rfl, fun _ _ _ => rfl,
    ⟨[], definePre_dict_RA cls⟩, ⟨[], definePre_dict_RC cls⟩⟩

theorem define_eq (cls : PyClass) :
    define cls = (dirC (definePre cls)).foldl defineStep (definePre cls) := rfl

theorem define_char (cls : PyClass) :
    clsInv (definePre cls) (define cls) ∧
    dictGet (define cls).dict REQUIRED_ATTR = some (.vlist
      ((dirC (definePre cls)).filter
        (fun k => attrRequiredFlag (getattrOpt (definePre cls) k)))) ∧
    dictGet (define cls).dict REQUIRED_CLASSMETHOD = some (.vlist
      ((dirC (definePre cls)).filter
        (fun k => attrRequiredClsFlag (getattrOpt (definePre cls) k)))) := by
  rw [define_eq]
  have h := foldDefine_char (definePre cls)
    ⟨[], definePre_dict_RA cls⟩ ⟨[], definePre_dict_RC cls⟩
    (dirC (definePre cls)) (definePre cls) [] []
    (definePre_inv cls) (definePre_dict_RA cls) (definePre_dict_RC cls)
  simpa using h

theorem isSome_of_requiredFlag (o : Option Attr)
    (h : attrRequiredFlag o = true) : o.isSome = true := by
  cases o with
  | none => simp [attrRequiredFlag] at h
  | some a => rfl

theorem isSome_of_requiredClsFlag (o : Option Attr)
    (h : attrRequiredClsFlag o = true) : o.isSome = true := by
  cases o with
  | none => simp [attrRequiredClsFlag] at h
  | some a => rfl

theorem truthy_of_requiredFlag (a : Attr)
    (h : attrRequiredFlag (some a) = true) : attrTruthy a = true := by
  cases a <;> simp_all [attrRequiredFlag, attrTruthy]

theorem getattr_define_RA (cls : PyClass) :
    getattrOpt (define cls) REQUIRED_ATTR = some (.alist
      ((dirC (definePre cls)).filter
        (fun k => attrRequiredFlag (getattrOpt (definePre cls) k)))) := by
  rw [getattrOpt_own _ _ _ (define_char cls).2.1]; rfl

theorem getattr_define_RC (cls : PyClass) :
    getattrOpt (define cls) REQUIRED_CLASSMETHOD = some (.alist
      ((dirC (definePre cls)).filter
        (fun k => attrRequiredClsFlag (getattrOpt (definePre cls) k)))) := by
  rw [getattrOpt_own _ _ _ (define_char cls).2.2]; rfl

theorem reqNames_define (cls : PyClass) :
    reqNames (define cls) =
      (dirC (definePre cls)).filter
        (fun k => attrRequiredFlag (getattrOpt (definePre cls) k)) := by
  rw [reqNames, getattr_define_RA]

theorem rcNames_define (cls : PyClass) :
    rcNames (define cls) =
      (dirC (definePre cls)).filter
        (fun k => attrRequiredClsFlag (getattrOpt (definePre cls) k)) := by
  rw [rcNames, getattr_define_RC]

theorem flags_define (cls : PyClass) (k : String) :
    attrRequiredFlag (getattrOpt (define cls) k) =
      attrRequiredFlag (getattrOpt (definePre cls) k) ∧
    attrRequiredClsFlag (getattrOpt (define cls) k) =
      attrRequiredClsFlag (getattrOpt (definePre cls) k) :=
  flags_of_inv (definePre cls) (define cls) (define_char cls).1
    ⟨_, definePre_dict_RA cls⟩ ⟨_, definePre_dict_RC cls⟩ k

theorem mem_reqNames_define (cls : PyClass) (k : String) :
    k ∈ reqNames (define cls) ↔
      attrRequiredFlag (getattrOpt (define cls) k) = true := by
  rw [reqNames_define, List.mem_filter, (flags_define cls k).1]
  constructor
  · rintro ⟨_, h⟩; exact h
  · intro h
    refine ⟨?_, h⟩
    rw [mem_dirC_iff_getattr, getattrOpt_isSome_iff]
    rw [← getattrOpt_isSome_iff]
    exact isSome_of_requiredFlag _ h

theorem mem_rcNames_define (cls : PyClass) (k : String) :
    k ∈ rcNames (define cls) ↔
      attrRequiredClsFlag (getattrOpt (define cls) k) = true := by
  rw [rcNames_define, List.mem_filter, (flags_define cls k).2]
  constructor
  · rintro ⟨_, h⟩; exact h
  · intro h
    refine ⟨?_, h⟩
    rw [mem_dirC_iff_getattr, getattrOpt_isSome_iff]
    rw [← getattrOpt_isSome_iff]
    exact isSome_of_requiredClsFlag _ h

theorem definePre_dict_off (cls : PyClass) (k : String)
    (h1 : k ≠ REQUIRED_ATTR) (h2 : k ≠ REQUIRED_CLASSMETHOD) :
    dictGet (definePre cls).dict k = dictGet cls.dict k := by
  rw [show (definePre cls).dict =
    setattrD (setattrD cls.dict REQUIRED_ATTR (.vlist []))
      REQUIRED_CLASSMETHOD (.vlist []) from rfl,
    dictGet_setattrD, if_neg (fun he => h2 he.symm),
    dictGet_setattrD, if_neg (fun he => h1 he.symm)]

theorem getattrOpt_define_off (cls : PyClass) (k : String)
    (h1 : k ≠ REQUIRED_ATTR) (h2 : k ≠ REQUIRED_CLASSMETHOD) :
    getattrOpt (define cls) k = getattrOpt cls k := by
  rw [getattrOpt_of_inv _ _ (define_char cls).1 k h1 h2]
  exact getattrOpt_congr _ _ k rfl rfl (definePre_dict_off cls k h1 h2)

/-- A name on a defined interface's required list resolves to a flagged
(hence truthy) placeholder. -/
theorem placeholder_of_mem_req (cls : PyClass) (k : String)
    (h : k ∈ reqNames (define cls)) :
    ∃ pa, getattrOpt (define cls) k = some pa ∧
      attrRequiredFlag (some pa) = true ∧ attrTruthy pa = true := by
  have hf := (mem_reqNames_define cls k).1 h
  obtain ⟨pa, hpa⟩ := Option.isSome_iff_exists.1 (isSome_of_requiredFlag _ hf)
  rw [hpa] at hf
  exact ⟨pa, hpa, hf, truthy_of_requiredFlag pa hf⟩

/-! ### The Required Checker, name by name -/

theorem attrEqB_refl (a : Attr) : attrEqB a a = true := by
  cases a <;> simp [attrEqB]

theorem placeholderAttr_eq (I : PyClass) (k : String) (pa : Attr)
    (hpa : getattrOpt I k = some pa) : placeholderAttr I k = pa := by
  rw [placeholderAttr, hpa]; rfl

theorem clsAttributeOf_unfold (I C : PyClass) (k : String) (pa : Attr)
    (hpa : getattrOpt I k = some pa) :
    clsAttributeOf I C k =
      (match getattrOpt C k with
       | some a => if attrTruthy a then a else pa
       | Option.none => pa) := by
  rw [clsAttributeOf, placeholderAttr_eq I k pa hpa]

theorem phDoc_eq (I : PyClass) (k : String) (pa : Attr)
    (hpa : getattrOpt I k = some pa) : phDoc I k = attrDoc pa := by
  rw [phDoc, placeholderAttr_eq I k pa hpa]

theorem checkReqKey_ord_char (I C : PyClass) (L : List String) (k : String)
    (pa : Attr) (hpa : getattrOpt I k = some pa) (hk : k ∉ L) :
    checkReqKey I C (.alist L) k =
      (if attrTruthy (clsAttributeOf I C k) &&
          !attrRequiredFlag (some (clsAttributeOf I C k)) then .ok ()
       else .error (.missingRequiredAttribute (phDoc I k))) := by
  have hdec : decide (k ∈ L) = false := by simpa using hk
  rw [checkReqKey, phDoc_eq I k pa hpa]
  simp only [attrContains, hdec, hpa, Bool.false_eq_true, if_false,
    clsAttributeOf_unfold I C k pa hpa]

theorem checkReqKey_cm_char (I C : PyClass) (L : List String) (k : String)
    (pa : Attr) (hpa : getattrOpt I k = some pa) (hk : k ∈ L) :
    checkReqKey I C (.alist L) k =
      (if attrEqB pa (clsAttributeOf I C k) then
        .error (.missingRequiredClassMethod (phDoc I k))
       else
        match attrImSelf (clsAttributeOf I C k) with
        | .error e => .error e
        | .ok s =>
            if s = some C.id then .ok ()
            else .error (.missingRequiredClassMethod (phDoc I k))) := by
  have hdec : decide (k ∈ L) = true := by simpa using hk
  rw [checkReqKey, phDoc_eq I k pa hpa]
  simp only [attrContains, hdec, hpa, if_true,
    clsAttributeOf_unfold I C k pa hpa]

theorem checkReqKey_cm_ok_iff (I C : PyClass) (L : List String) (k : String)
    (pa : Attr) (hpa : getattrOpt I k = some pa) (hk : k ∈ L) :
    checkReqKey I C (.alist L) k = .ok () ↔
      attrEqB pa (clsAttributeOf I C k) = false ∧
      attrImSelf (clsAttributeOf I C k) = .ok (some C.id) := by
  rw [checkReqKey_cm_char I C L k pa hpa hk]
  by_cases he : attrEqB pa (clsAttributeOf I C k) = true
  · simp [he]
  · rw [if_neg he]
    cases his : attrImSelf (clsAttributeOf I C k) with
    | error e => simp [Bool.not_eq_true] at he; simp [he]
    | ok s =>
        by_cases hs : s = some C.id
        · simp [Bool.not_eq_true] at he; simp [he, hs]
        · simp [Bool.not_eq_true] at he; simp [he, hs]

theorem checkReqKey_cm_not_MRA (I C : PyClass) (L : List String) (k : String)
    (pa : Attr) (hpa : getattrOpt I k = some pa) (hk : k ∈ L)
    (d : Option String) :
    checkReqKey I C (.alist L) k ≠ .error (.missingRequiredAttribute d) := by
  rw [checkReqKey_cm_char I C L k pa hpa hk]
  by_cases he : attrEqB pa (clsAttributeOf I C k) = true
  · simp [he]
  · rw [if_neg he]
    cases his : attrImSelf (clsAttributeOf I C k) with
    | error e =>
        cases e <;> simp [attrImSelf] at his ⊢
        cases hca : clsAttributeOf I C k <;> rw [hca] at his <;>
          simp [attrImSelf] at his ⊢
    | ok s => by_cases hs : s = some C.id <;> simp [hs]

theorem attrImSelf_no_II (a : Attr) (m : String) :
    attrImSelf a ≠ .error (.invalidInterface m) := by
  cases a <;> simp [attrImSelf]

theorem attrContains_no_II (a : Attr) (k : String) (m : String) :
    attrContains a k ≠ .error (.invalidInterface m) := by
  cases a <;> simp [attrContains]

theorem reqKeyBody_no_II (pa ca : Attr) (cid : Nat) (b : Bool) (m : String) :
    (if b = true then
       if attrEqB pa ca = true then
         Except.error (PyErr.missingRequiredClassMethod (attrDoc pa))
       else
         match attrImSelf ca with
         | .error e => .error e
         | .ok s =>
             if s = some cid then .ok ()
             else .error (.missingRequiredClassMethod (attrDoc pa))
     else
       if (attrTruthy ca && !attrRequiredFlag (some ca)) = true then
         Except.ok ()
       else Except.error (PyErr.missingRequiredAttribute (attrDoc pa))) ≠
      Except.error (PyErr.invalidInterface m) := by
  by_cases hb : b = true
  · rw [if_pos hb]
    by_cases he : attrEqB pa ca = true
    · simp [he]
    · rw [if_neg he]
      cases his : attrImSelf ca with
      | error e =>
          intro hcon
          injection hcon with h1
          rw [h1] at his
          exact attrImSelf_no_II _ m his
      | ok s => by_cases hs : s = some cid <;> simp [hs]
  · rw [if_neg hb]
    by_cases himp : (attrTruthy ca && !attrRequiredFlag (some ca)) = true
    · simp [himp]
    · simp [himp]

theorem checkReqKey_no_II (I C : PyClass) (rcs : Attr) (k : String)
    (m : String) :
    checkReqKey I C rcs k ≠ .error (.invalidInterface m) := by
  rw [checkReqKey]
  split
  · rename_i e he
    intro hcon
    injection hcon with h1
    rw [h1] at he
    exact attrContains_no_II rcs k m he
  · split
    · simp
    · rename_i s1 b hb s2 pa hpa
      dsimp only
      generalize (match getattrOpt C k with
        | some a => if attrTruthy a = true then a else pa
        | Option.none => pa) = ca
      exact reqKeyBody_no_II pa ca C.id b m

/-! ### The Required Checker's loop and `implement` -/

theorem goReq_ok_iff (I C : PyClass) (rcs : Attr) (ks : List String) :
    goReq I C rcs ks = .ok () ↔
      ∀ k ∈ ks, checkReqKey I C rcs k = .ok () := by
  induction ks with
  | nil => simp [goReq]
  | cons a ks ih =>
      rw [goReq]
      cases h : checkReqKey I C rcs a with
      | ok u =>
          cases u
          simp [h, ih]
      | error e => simp [h]

theorem goReq_err_iff (I C : PyClass) (rcs : Attr) (ks : List String)
    (e : PyErr) :
    goReq I C rcs ks = .error e ↔
      ∃ l1 k l2, ks = l1 ++ k :: l2 ∧
        (∀ j ∈ l1, checkReqKey I C rcs j = .ok ()) ∧
        checkReqKey I C rcs k = .error e := by
  induction ks with
  | nil =>
      constructor
      · intro h; simp [goReq] at h
      · rintro ⟨l1, k, l2, hsplit, -, -⟩
        exact absurd hsplit (by simp)
  | cons a ks ih =>
      rw [goReq]
      cases h : checkReqKey I C rcs a with
      | ok u =>
          cases u
          rw [ih]
          constructor
          · rintro ⟨l1, k, l2, hsplit, hok, herr⟩
            refine ⟨a :: l1, k, l2, by rw [hsplit]; rfl, ?_, herr⟩
            intro j hj
            rcases List.mem_cons.1 hj with rfl | hj
            · exact h
            · exact hok j hj
          · rintro ⟨l1, k, l2, hsplit, hok, herr⟩
            cases l1 with
            | nil =>
                simp at hsplit
                obtain ⟨rfl, rfl⟩ := hsplit
                rw [h] at herr
                exact absurd herr (by simp)
            | cons b l1 =>
                rw [List.cons_append] at hsplit
                injection hsplit with hb hrest
                subst hb
                exact ⟨l1, k, l2, hrest,
                  fun j hj => hok j (List.mem_cons_of_mem _ hj), herr⟩
      | error e' =>
          constructor
          · intro h1
            injection h1 with h1
            exact ⟨[], a, ks, rfl, by simp, by rw [h, h1]⟩
          · rintro ⟨l1, k, l2, hsplit, hok, herr⟩
            cases l1 with
            | nil =>
                simp at hsplit
                obtain ⟨rfl, rfl⟩ := hsplit
                rw [h] at herr
                injection herr with he
                rw [he]
            | cons b l1 =>
                rw [List.cons_append] at hsplit
                injection hsplit with hb hrest
                subst hb
                have := hok a (List.mem_cons_self a l1)
                rw [h] at this
                exact absurd this (by simp)

theorem hasattr_define_RA (cls : PyClass) :
    hasattrC (define cls) REQUIRED_ATTR = true := by
  rw [hasattrC, getattr_define_RA]; rfl

theorem check_required_define (cls C : PyClass) :
    check_required (define cls) C =
      goReq (define cls) C (.alist (rcNames (define cls)))
        (reqNames (define cls)) := by
  rw [check_required, hasattr_define_RA]
  simp only [getattr_define_RC cls, getattr_define_RA cls,
    Bool.true_eq_false, if_false]
  rw [← reqNames_define, ← rcNames_define]

theorem checkOne_define (cls C : PyClass) (k : String) :
    checkOne (define cls) C k =
      checkReqKey (define cls) C (.alist (rcNames (define cls))) k := by
  simp only [checkOne, getattr_define_RC cls]
  rw [← rcNames_define]

theorem implement_single_err (I C : PyClass) (e : PyErr) :
    implement [I] C = .error e ↔
      check_required I C = .error e ∨
        (check_required I C = .ok () ∧ check_final (some I) C = .error e) := by
  cases h1 : check_required I C with
  | error e' => simp [implement, implementGo, h1]
  | ok u =>
      cases u
      cases h2 : check_final (some I) C with
      | error e' => simp [implement, implementGo, h1, h2]
      | ok u => cases u; simp [implement, implementGo, h1, h2]

theorem implement_ok_iff (ifs : List PyClass) (cls r : PyClass) :
    implement ifs cls = .ok r ↔ implementGo ifs cls = .ok () ∧ r = cls := by
  rw [implement]
  cases h : implementGo ifs cls with
  | ok u => cases u; simp [eq_comm]
  | error e => simp

/-! ### Error shapes of the Final Checker -/

theorem walkFinal_err_shape (k : String) :
    ∀ (bases : List (Nat × Dict)) (armed : Bool) (e : PyErr),
    walkFinal k bases armed = .error e → ∃ b, e = .cannotOverrideFinal k b := by
  intro bases
  induction bases with
  | nil => intro armed e h; simp [walkFinal] at h
  | cons p rest ih =>
      intro armed e h
      obtain ⟨bid, d⟩ := p
      rw [walkFinal] at h
      revert h
      cases hd : dictGet d k with
      | none =>
          intro h
          exact ih armed e h
      | some v =>
          dsimp only
          by_cases ht : valTruthy v = false
          · rw [if_pos ht]
            intro h
            exact ih armed e h
          · rw [if_neg ht]
            cases armed with
            | true =>
                intro h
                injection h with h
                exact ⟨bid, h.symm⟩
            | false =>
                intro h
                exact ih _ e h

theorem goFinalKeys_err_shape (io : Option PyClass) (C : PyClass) :
    ∀ (ks : List String) (e : PyErr),
    goFinalKeys io C ks = .error e → ∃ k b, e = .cannotOverrideFinal k b := by
  intro ks
  induction ks with
  | nil => intro e h; simp [goFinalKeys] at h
  | cons a ks ih =>
      intro e h
      rw [goFinalKeys] at h
      revert h
      by_cases hc : attrCallable (getattrOpt C a) = false
      · rw [if_pos hc]
        exact ih e
      · rw [if_neg hc]
        cases hw : walkFinal a (finalChain io C) false with
        | ok u => cases u; exact ih e
        | error e' =>
            intro h
            injection h with h
            obtain ⟨b, hb⟩ := walkFinal_err_shape a _ _ _ hw
            exact ⟨a, b, by rw [← h, hb]⟩

theorem check_final_err_shape (io : Option PyClass) (C : PyClass) (e : PyErr)
    (h : check_final io C = .error e) : ∃ k b, e = .cannotOverrideFinal k b :=
  goFinalKeys_err_shape io C (dirC C) e h

theorem mem_split_first (a : String) (l : List String) (h : a ∈ l) :
    ∃ s t, l = s ++ a :: t ∧ a ∉ s := by
  induction l with
  | nil => simp at h
  | cons b l ih =>
      by_cases hb : a = b
      · subst hb
        exact ⟨[], l, rfl, by simp⟩
      · have h' : a ∈ l := by
          rcases List.mem_cons.1 h with h1 | h1
          · exact absurd h1 hb
          · exact h1
        obtain ⟨s, t, hst, hns⟩ := ih h'
        exact ⟨b :: s, t, by rw [hst]; rfl, by simp [hb, hns]⟩

/-! ### Claim C4: what `define` collects -/

/-- C4: `define(cls)` returns the same class object (identity and ancestry
unchanged) with the two bookkeeping lists attached as fresh list attributes;
a name is on `required_attrs` (resp. `required_classmethods`) exactly when
it resolves on the defined class to an attribute carrying the required
(resp. required-classmethod) flag — attribute resolution sees inherited
names, so an interface defined on top of another interface re-collects the
base's required names (transitive accumulation).  Away from the two
bookkeeping names themselves, resolution on the defined class agrees with
resolution on the input class, giving the claim's "resolvable on cls"
reading. -/
theorem C4_define_collects (cls : PyClass) :
    ((define cls).id = cls.id ∧ (define cls).ancestors = cls.ancestors) ∧
    (∃ l, getattrOpt (define cls) REQUIRED_ATTR = some (.alist l)) ∧
    (∃ l, getattrOpt (define cls) REQUIRED_CLASSMETHOD = some (.alist l)) ∧
    (∀ k, k ∈ reqNames (define cls) ↔
      attrRequiredFlag (getattrOpt (define cls) k) = true) ∧
    (∀ k, k ∈ rcNames (define cls) ↔
      attrRequiredClsFlag (getattrOpt (define cls) k) = true) ∧
    (∀ k, k ≠ REQUIRED_ATTR → k ≠ REQUIRED_CLASSMETHOD →
      (k ∈ reqNames (define cls) ↔
        attrRequiredFlag (getattrOpt cls k) = true)) := by
  obtain ⟨hinv, hA, hC⟩ := define_char cls
  refine ⟨⟨hinv.1, hinv.2.1⟩, ⟨_, getattr_define_RA cls⟩,
    ⟨_, getattr_define_RC cls⟩, mem_reqNames_define cls,
    mem_rcNames_define cls, ?_⟩
  intro k h1 h2
  rw [mem_reqNames_define, getattrOpt_define_off cls k h1 h2]

/-- C4 witness: at the concrete `StringInterface`-style interface, the name
`execute` is collected exactly because its placeholder carries the flag. -/
theorem C4_witness :
    ("execute" ∈ reqNames (define wI0)) ∧
      attrRequiredFlag (getattrOpt wI0 "execute") = true :=
  ⟨((C4_define_collects wI0).2.2.2.2.2 "execute" (by decide)
      (by decide)).2 (by decide), by decide⟩

/-! ### Claim C8: required classmethods are also required attributes -/

/-- C8: the library's own markers guarantee the invariant — a
`require_classmethod` wrapper carries both flags — and for any interface
whose required-classmethod names carry the required flag too (which is the
case whenever the flags were set by the library's decorators), every name
on `required_classmethods` also appears on `required_attrs`. -/
theorem C8_rc_subset_req (cls : PyClass)
    (hflags : ∀ k ∈ rcNames (define cls),
      attrRequiredClsFlag (getattrOpt (define cls) k) = true →
        attrRequiredFlag (getattrOpt (define cls) k) = true) :
    (∀ (f : PyFunc) (nid : Nat),
      (require_classmethod nid f).requiredCls = true ∧
      (require_classmethod nid f).required = true) ∧
    (∀ k ∈ rcNames (define cls), k ∈ reqNames (define cls)) := by
  refine ⟨fun f nid => ⟨rfl, rfl⟩, ?_⟩
  intro k hk
  rw [mem_reqNames_define]
  exact hflags k hk ((mem_rcNames_define cls k).1 hk)

/-- C8 witness: at the concrete `ClassMethodRequired`-style interface. -/
theorem C8_witness :
    (∀ k ∈ rcNames (define wI0cm),
      attrRequiredClsFlag (getattrOpt (define wI0cm) k) = true →
        attrRequiredFlag (getattrOpt (define wI0cm) k) = true) ∧
    (∀ k ∈ rcNames (define wI0cm), k ∈ reqNames (define wI0cm)) :=
  ⟨by decide, (C8_rc_subset_req wI0cm (by decide)).2⟩

/-! ### Claim C5: idempotence of `implement` -/

/-- C5: when `implement(*interfaces)` succeeds on `cls` it returns the very
same class object, and applying it again succeeds with the same result. -/
theorem C5_implement_idempotent (ifs : List PyClass) (cls r : PyClass)
    (h : implement ifs cls = .ok r) :
    r = cls ∧ implement ifs r = .ok cls := by
  obtain ⟨hgo, hr⟩ := (implement_ok_iff ifs cls r).1 h
  subst hr
  exact ⟨rfl, h⟩

/-- C5 witness: the conformant concrete class. -/
theorem C5_witness :
    implement [define wI0] wCex = .ok wCex ∧
    (wCex = wCex ∧ implement [define wI0] wCex = .ok wCex) :=
  ⟨rfl, C5_implement_idempotent [define wI0] wCex wCex rfl⟩

/-! ### Claim C6: when InvalidInterface is raised (corrected) -/

/-- C6 counterexample: a class carrying `required_attrs` but not
`required_classmethods` was never produced by `define`, yet decorating with
it raises an `AttributeError` (line 93's unguarded `getattr`), not
`InvalidInterface` — refuting the claimed "iff both bookkeeping attributes
are missing". -/
theorem C6_counterexample :
    hasattrC c6X REQUIRED_ATTR = true ∧
    hasattrC c6X REQUIRED_CLASSMETHOD = false ∧
    implement [c6X] wCnone = .error .attrError ∧
    isIIErr (implement [c6X] wCnone) = false :=
  ⟨by decide, by decide, rfl, by decide⟩

/-- C6 amended: the decoration raises `InvalidInterface` exactly when the
object lacks the `required_attrs` bookkeeping attribute; the
`required_classmethods` attribute is never consulted for this error (its
absence surfaces as an `AttributeError` instead). -/
theorem C6_invalid_interface_iff (X C : PyClass) :
    (∃ m, implement [X] C = .error (.invalidInterface m)) ↔
      hasattrC X REQUIRED_ATTR = false := by
  constructor
  · rintro ⟨m, hm⟩
    rw [implement_single_err] at hm
    cases hb : hasattrC X REQUIRED_ATTR
    · rfl
    · exfalso
      rcases hm with h | ⟨-, h⟩
      · unfold check_required at h
        rw [hb, if_neg (by simp : ¬(true = false))] at h
        revert h
        cases hrc : getattrOpt X REQUIRED_CLASSMETHOD with
        | none => simp
        | some rcs =>
            cases hra : getattrOpt X REQUIRED_ATTR with
            | none => simp
            | some ra =>
                cases ra <;> try simp
                intro h
                obtain ⟨l1, k, l2, -, -, herr⟩ := (goReq_err_iff _ _ _ _ _).1 h
                exact checkReqKey_no_II X C rcs k m herr
      · obtain ⟨k, b, hkb⟩ := check_final_err_shape _ _ _ h
        simp at hkb
  · intro hf
    refine ⟨"An interface class must have a `_interfaces_required` list attribute.", ?_⟩
    rw [implement_single_err]
    left
    unfold check_required
    rw [if_pos hf]

/-! ### Claim C7: invoking a required placeholder (corrected) -/

/-- C7 counterexample: `capture_method(instance, *args, **kwargs)` has a
mandatory `instance` parameter, so invoking the wrapper with no arguments
at all fails with a `TypeError` before the placeholder body can raise —
refuting "raises MissingRequiredAttribute ... for any arguments". -/
theorem C7_counterexample :
    callFunc (require 41 wFn) [] = some (.error .typeErr) ∧
    callFunc (require 41 wFn) [] ≠
      some (.error (.missingRequiredAttribute wFn.doc)) :=
  ⟨rfl, by intro h; simp [callFunc, require] at h⟩

/-- C7 amended: the wrapper returned by `require(f)` raises
`MissingRequiredAttribute` carrying `f`'s docstring whenever it is invoked
with at least one argument (the `instance` slot), independent of any
class-definition-time check. -/
theorem C7_require_raises (f : PyFunc) (nid : Nat) (args : List PyVal)
    (h : args ≠ []) :
    callFunc (require nid f) args =
      some (.error (.missingRequiredAttribute f.doc)) := by
  cases args with
  | nil => exact absurd rfl h
  | cons a as => rfl

/-- C7 witness. -/
theorem C7_witness :
    ([PyVal.vint 5] ≠ ([] : List PyVal)) ∧
    callFunc (require 2 wBaseExec) [PyVal.vint 5] =
      some (.error (.missingRequiredAttribute (some execDoc))) :=
  ⟨by decide, C7_require_raises wBaseExec 2 [PyVal.vint 5] (by decide)⟩

/-! ### Claim C9: marker side effects (corrected) -/

/-- C9 counterexample: `final` does not build a fresh wrapper — it sets the
flag on the function object itself and returns that same object (same
identity, changed state), i.e. the original function *is* mutated in
place, refuting the claim for `final`. -/
theorem C9_counterexample :
    (final wFn).fid = wFn.fid ∧ (final wFn).fnl = true ∧ wFn.fnl = false ∧
      final wFn ≠ wFn :=
  ⟨rfl, rfl, rfl, by decide⟩

/-- C9 amended: `require` and `require_classmethod` return a fresh wrapper
(new object identity) preserving the original's name and docstring, leaving
the original untouched; `final`, by contrast, returns the original object
itself with the final flag set in place (no wrapper), preserving name and
docstring trivially. -/
theorem C9_marker_effects (f : PyFunc) (nid : Nat) (h : nid ≠ f.fid) :
    ((require nid f).fid ≠ f.fid ∧ (require nid f).fname = f.fname ∧
      (require nid f).doc = f.doc) ∧
    ((require_classmethod nid f).fid ≠ f.fid ∧
      (require_classmethod nid f).fname = f.fname ∧
      (require_classmethod nid f).doc = f.doc) ∧
    ((final f).fid = f.fid ∧ (final f).fname = f.fname ∧
      (final f).doc = f.doc ∧ (final f).fnl = true) :=
  ⟨⟨h, rfl, rfl⟩, ⟨h, rfl, rfl⟩, rfl, rfl, rfl, rfl⟩

/-- C9 witness. -/
theorem C9_witness : (41 ≠ wFn.fid) ∧ (require 41 wFn).fid ≠ wFn.fid :=
  ⟨by decide, (C9_marker_effects wFn 41 (by decide)).1.1⟩

/-! ### Claim C10: falsy attributes fall back to the placeholder -/

/-- C10: if the candidate binds a required (non-classmethod) name to a
falsy value, the checker's `getattr(cls, key, None) or attribute` falls
back to the interface's placeholder for that name, and the per-name check
raises `MissingRequiredAttribute` even though the candidate does provide
an attribute under that name. -/
theorem C10_falsy_fallback (I0 C : PyClass) (n : String)
    (h1 : n ∈ reqNames (define I0)) (h2 : n ∉ rcNames (define I0))
    (a : Attr) (h3 : getattrOpt C n = some a) (h4 : attrTruthy a = false) :
    clsAttributeOf (define I0) C n = placeholderAttr (define I0) n ∧
    checkOne (define I0) C n =
      .error (.missingRequiredAttribute (phDoc (define I0) n)) := by
  obtain ⟨pa, hpa, hflag, htr⟩ := placeholder_of_mem_req I0 n h1
  have hph : placeholderAttr (define I0) n = pa := placeholderAttr_eq _ _ _ hpa
  have hca : clsAttributeOf (define I0) C n = placeholderAttr (define I0) n := by
    simp only [clsAttributeOf, h3]
    rw [if_neg (by simp [h4])]
  refine ⟨hca, ?_⟩
  rw [checkOne_define, checkReqKey_ord_char (define I0) C _ n pa hpa h2,
    hca, hph, if_neg (by simp [htr, hflag])]

/-- C10 witness: the candidate binding `execute` to `None`. -/
theorem C10_witness :
    ("execute" ∈ reqNames (define wI0)) ∧
    ("execute" ∉ rcNames (define wI0)) ∧
    getattrOpt wCfalsy "execute" = some .anone ∧
    checkOne (define wI0) wCfalsy "execute" =
      .error (.missingRequiredAttribute (phDoc (define wI0) "execute")) :=
  ⟨by decide, by decide, by decide,
    (C10_falsy_fallback wI0 wCfalsy "execute" (by decide) (by decide)
      .anone (by decide) (by decide)).2⟩

/-! ### Claim C3: the classmethod path of the Required Checker -/

/-- C3: for a required classmethod name `m` of a defined interface, the
checker raises `MissingRequiredClassMethod` (citing the placeholder's
docstring) when the candidate lacks `m` and when it defines `m` as an
ordinary instance method; the per-name check succeeds exactly when the
attribute resolved on the candidate differs from the interface's own
placeholder and is a classmethod bound to the candidate itself
(`im_self == cls`).  Moreover, when every other requirement passes, the
whole decoration raises `MissingRequiredClassMethod` in the two failing
situations. -/
theorem C3_classmethod_requirement (I0 C : PyClass) (m : String)
    (hm : m ∈ rcNames (define I0)) :
    (getattrOpt C m = Option.none →
      checkOne (define I0) C m =
        .error (.missingRequiredClassMethod (phDoc (define I0) m))) ∧
    (∀ f, getattrOpt C m = some (.meth f) →
      checkOne (define I0) C m =
        .error (.missingRequiredClassMethod (phDoc (define I0) m))) ∧
    (checkOne (define I0) C m = .ok () ↔
      (attrEqB (placeholderAttr (define I0) m)
          (clsAttributeOf (define I0) C m) = false ∧
        attrImSelf (clsAttributeOf (define I0) C m) = .ok (some C.id))) ∧
    ((∀ k ∈ reqNames (define I0), k ≠ m →
        checkOne (define I0) C k = .ok ()) →
      m ∈ reqNames (define I0) →
      (getattrOpt C m = Option.none ∨
        (∃ f, getattrOpt C m = some (.meth f))) →
      implement [define I0] C =
        .error (.missingRequiredClassMethod (phDoc (define I0) m))) := by
  have hfc := (mem_rcNames_define I0 m).1 hm
  obtain ⟨pa, hpa⟩ :=
    Option.isSome_iff_exists.1 (isSome_of_requiredClsFlag _ hfc)
  have hph : placeholderAttr (define I0) m = pa := placeholderAttr_eq _ _ _ hpa
  have part1 : getattrOpt C m = Option.none →
      checkOne (define I0) C m =
        .error (.missingRequiredClassMethod (phDoc (define I0) m)) := by
    intro h3
    have hca : clsAttributeOf (define I0) C m = pa := by
      simp only [clsAttributeOf, h3, hph]
    rw [checkOne_define, checkReqKey_cm_char (define I0) C _ m pa hpa hm,
      hca, if_pos (attrEqB_refl pa)]
  have part2 : ∀ f, getattrOpt C m = some (.meth f) →
      checkOne (define I0) C m =
        .error (.missingRequiredClassMethod (phDoc (define I0) m)) := by
    intro f h3
    have hca : clsAttributeOf (define I0) C m = .meth f := by
      simp only [clsAttributeOf, h3]
      rw [if_pos (by simp [attrTruthy])]
    rw [checkOne_define, checkReqKey_cm_char (define I0) C _ m pa hpa hm, hca]
    by_cases he : attrEqB pa (.meth f) = true
    · rw [if_pos he]
    · rw [if_neg he]
      simp [attrImSelf]
  have part3 : checkOne (define I0) C m = .ok () ↔
      (attrEqB (placeholderAttr (define I0) m)
          (clsAttributeOf (define I0) C m) = false ∧
        attrImSelf (clsAttributeOf (define I0) C m) = .ok (some C.id)) := by
    rw [checkOne_define, hph]
    exact checkReqKey_cm_ok_iff (define I0) C _ m pa hpa hm
  refine ⟨part1, part2, part3, ?_⟩
  intro hoth hmr hshape
  have herr : checkOne (define I0) C m =
      .error (.missingRequiredClassMethod (phDoc (define I0) m)) := by
    rcases hshape with h3 | ⟨f, h3⟩
    · exact part1 h3
    · exact part2 f h3
  rw [implement_single_err]
  left
  rw [check_required_define, goReq_err_iff]
  obtain ⟨s, t, hst, hns⟩ := mem_split_first m _ hmr
  refine ⟨s, m, t, hst, ?_, ?_⟩
  · intro j hj
    have hjm : j ≠ m := fun he => hns (he ▸ hj)
    have hjr : j ∈ reqNames (define I0) := by
      rw [hst]; exact List.mem_append_left _ hj
    have := hoth j hjr hjm
    rw [checkOne_define] at this
    exact this
  · rw [← checkOne_define]
    exact herr

/-- C3 witness: `ClassMethodRequired` with `foo` defined as an ordinary
instance method raises `MissingRequiredClassMethod`. -/
theorem C3_witness :
    ("foo" ∈ rcNames (define wI0cm)) ∧
    checkOne (define wI0cm) wCcmInst "foo" =
      .error (.missingRequiredClassMethod (phDoc (define wI0cm) "foo")) :=
  ⟨by decide,
    (C3_classmethod_requirement wI0cm wCcmInst "foo" (by decide)).2.1
      ⟨6, "foo", Option.none, false, false, false, .userCode 6⟩ (by decide)⟩

/-! ### Claim C1: when MissingRequiredAttribute is raised (corrected) -/

theorem ord_cond (I0 C : PyClass) (k : String)
    (hk : k ∈ reqNames (define I0)) :
    ((attrTruthy (clsAttributeOf (define I0) C k) &&
      !attrRequiredFlag (some (clsAttributeOf (define I0) C k))) = false) ↔
    (getattrOpt C k = Option.none ∨
      attrRequiredFlag (some (clsAttributeOf (define I0) C k)) = true) := by
  obtain ⟨pa, hpa, hflag, htr⟩ := placeholder_of_mem_req I0 k hk
  have hph := placeholderAttr_eq _ _ _ hpa
  cases hC : getattrOpt C k with
  | none =>
      have hca : clsAttributeOf (define I0) C k = pa := by
        simp only [clsAttributeOf, hC, hph]
      rw [hca]
      simp [htr, hflag]
  | some a =>
      by_cases ht : attrTruthy a = true
      · have hca : clsAttributeOf (define I0) C k = a := by
          simp only [clsAttributeOf, hC]
          rw [if_pos ht]
        rw [hca]
        simp [ht]
      · have hca : clsAttributeOf (define I0) C k = pa := by
          simp only [clsAttributeOf, hC]
          rw [if_neg ht, hph]
        rw [hca]
        simp [htr, hflag]

theorem ord_key_fail (I0 C : PyClass) (k : String)
    (hk : k ∈ reqNames (define I0)) (hkc : k ∉ rcNames (define I0)) :
    (checkReqKey (define I0) C (.alist (rcNames (define I0))) k = .ok () ↔
      ¬(getattrOpt C k = Option.none ∨
        attrRequiredFlag (some (clsAttributeOf (define I0) C k)) = true)) ∧
    (∀ e, checkReqKey (define I0) C (.alist (rcNames (define I0))) k =
        .error e →
      e = .missingRequiredAttribute (phDoc (define I0) k) ∧
      (getattrOpt C k = Option.none ∨
        attrRequiredFlag (some (clsAttributeOf (define I0) C k)) = true)) := by
  obtain ⟨pa, hpa, -, -⟩ := placeholder_of_mem_req I0 k hk
  rw [checkReqKey_ord_char (define I0) C _ k pa hpa hkc]
  by_cases hb : (attrTruthy (clsAttributeOf (define I0) C k) &&
      !attrRequiredFlag (some (clsAttributeOf (define I0) C k))) = true
  · rw [if_pos hb]
    have hnc : ¬(getattrOpt C k = Option.none ∨
        attrRequiredFlag (some (clsAttributeOf (define I0) C k)) = true) := by
      intro hc
      rw [(ord_cond I0 C k hk).2 hc] at hb
      exact absurd hb (by simp)
    exact ⟨iff_of_true rfl hnc, fun e he => absurd he (by simp)⟩
  · have hb' : (attrTruthy (clsAttributeOf (define I0) C k) &&
        !attrRequiredFlag (some (clsAttributeOf (define I0) C k))) = false := by
      revert hb
      cases attrTruthy (clsAttributeOf (define I0) C k) &&
        !attrRequiredFlag (some (clsAttributeOf (define I0) C k)) <;> simp
    rw [if_neg hb]
    have hc := (ord_cond I0 C k hk).1 hb'
    refine ⟨iff_of_false (by simp) (not_not_intro hc), ?_⟩
    intro e he
    injection he with he
    exact ⟨he.symm, hc⟩

/-- C1 counterexample: an interface with a failing required classmethod `a`
and a failing ordinary requirement `b`.  `b` is on the required list, is no
classmethod requirement, and is absent on the candidate, so the claimed
"iff" demands `MissingRequiredAttribute` — but the fail-fast checker hits
`a` first and raises `MissingRequiredClassMethod`. -/
theorem C1_counterexample :
    implement [define ceI0] wCnone =
      .error (.missingRequiredClassMethod (some "docA")) ∧
    "b" ∈ reqNames (define ceI0) ∧
    "b" ∉ rcNames (define ceI0) ∧
    getattrOpt wCnone "b" = Option.none ∧
    isMRAErr (implement [define ceI0] wCnone) = false :=
  ⟨rfl, by decide, by decide, by decide, by decide⟩

/-- C1 amended: provided the candidate satisfies every classmethod
requirement of the interface, the decoration raises
`MissingRequiredAttribute` iff some name on the interface's required list
that is not a classmethod requirement is absent on the candidate or still
resolves (after the falsy fallback) to an attribute carrying the required
flag; and any such error's message is the docstring of the placeholder of
the name the checker failed on.  (Without the proviso, an earlier-listed
failing classmethod requirement preempts the error, see the
counterexample.) -/
theorem C1_required_attribute (I0 C : PyClass)
    (hcm : ∀ k ∈ rcNames (define I0), checkOne (define I0) C k = .ok ()) :
    ((∃ d, implement [define I0] C = .error (.missingRequiredAttribute d)) ↔
      ∃ k ∈ reqNames (define I0), k ∉ rcNames (define I0) ∧
        (getattrOpt C k = Option.none ∨
          attrRequiredFlag (some (clsAttributeOf (define I0) C k)) = true)) ∧
    (∀ d, implement [define I0] C = .error (.missingRequiredAttribute d) →
      ∃ k ∈ reqNames (define I0), k ∉ rcNames (define I0) ∧
        d = phDoc (define I0) k ∧
        (getattrOpt C k = Option.none ∨
          attrRequiredFlag (some (clsAttributeOf (define I0) C k)) = true)) := by
  have hcm' : ∀ k ∈ rcNames (define I0),
      checkReqKey (define I0) C (.alist (rcNames (define I0))) k = .ok () := by
    intro k hk
    rw [← checkOne_define]
    exact hcm k hk
  have extract : ∀ d,
      implement [define I0] C = .error (.missingRequiredAttribute d) →
      ∃ k ∈ reqNames (define I0), k ∉ rcNames (define I0) ∧
        d = phDoc (define I0) k ∧
        (getattrOpt C k = Option.none ∨
          attrRequiredFlag (some (clsAttributeOf (define I0) C k)) = true) := by
    intro d hd
    rw [implement_single_err] at hd
    rcases hd with h | ⟨-, h⟩
    · rw [check_required_define] at h
      obtain ⟨l1, k, l2, hsplit, hok, herr⟩ := (goReq_err_iff _ _ _ _ _).1 h
      have hkr : k ∈ reqNames (define I0) := by
        rw [hsplit]
        exact List.mem_append_right _ (List.mem_cons_self _ _)
      by_cases hkc : k ∈ rcNames (define I0)
      · rw [hcm' k hkc] at herr
        exact absurd herr (by simp)
      · obtain ⟨hmsg, hcond⟩ := (ord_key_fail I0 C k hkr hkc).2 _ herr
        have hd' : d = phDoc (define I0) k := by
          injection hmsg
        exact ⟨k, hkr, hkc, hd', hcond⟩
    · obtain ⟨k', b, hkb⟩ := check_final_err_shape _ _ _ h
      simp at hkb
  refine ⟨⟨?_, ?_⟩, extract⟩
  · rintro ⟨d, hd⟩
    obtain ⟨k, hkr, hkc, -, hcond⟩ := extract d hd
    exact ⟨k, hkr, hkc, hcond⟩
  · rintro ⟨k, hkr, hkc, hcond⟩
    cases hre : check_required (define I0) C with
    | ok u =>
        cases u
        exfalso
        rw [check_required_define] at hre
        have hok := (goReq_ok_iff _ _ _ _).1 hre k hkr
        exact ((ord_key_fail I0 C k hkr hkc).1.1 hok) hcond
    | error e =>
        rw [check_required_define] at hre
        obtain ⟨l1, k', l2, hsplit, hok, herr⟩ :=
          (goReq_err_iff _ _ _ _ _).1 hre
        have hk'r : k' ∈ reqNames (define I0) := by
          rw [hsplit]
          exact List.mem_append_right _ (List.mem_cons_self _ _)
        by_cases hk'c : k' ∈ rcNames (define I0)
        · rw [hcm' k' hk'c] at herr
          exact absurd herr (by simp)
        · obtain ⟨hmsg, -⟩ := (ord_key_fail I0 C k' hk'r hk'c).2 e herr
          refine ⟨phDoc (define I0) k', ?_⟩
          rw [implement_single_err]
          left
          rw [check_required_define, ← hmsg]
          exact hre

/-- C1 witness: an interface without classmethod requirements and an empty
candidate — the required name `execute` is absent, so the decoration
raises `MissingRequiredAttribute`. -/
theorem C1_witness :
    (∀ k ∈ rcNames (define wI0), checkOne (define wI0) wCnone k = .ok ()) ∧
    (∃ d, implement [define wI0] wCnone =
      .error (.missingRequiredAttribute d)) := by
  have hrc : rcNames (define wI0) = [] := rfl
  have hcm : ∀ k ∈ rcNames (define wI0),
      checkOne (define wI0) wCnone k = .ok () := by
    intro k hk
    rw [hrc] at hk
    exact absurd hk (List.not_mem_nil k)
  exact ⟨hcm, ((C1_required_attribute wI0 wCnone hcm).1).2
    ⟨"execute", (by decide : "execute" ∈ reqNames (define wI0)),
      (by decide : "execute" ∉ rcNames (define wI0)),
      Or.inl (by decide : getattrOpt wCnone "execute" = Option.none)⟩⟩

/-! ### Claim C2: the Final Checker -/

theorem get?_append_len (L : List (Nat × Dict)) (p : Nat × Dict)
    (T : List (Nat × Dict)) : (L ++ p :: T).get? L.length = some p := by
  rw [List.get?_append_right (le_refl _)]
  simp

theorem get?_append_after (L : List (Nat × Dict)) (p : Nat × Dict)
    (T : List (Nat × Dict)) (n : Nat) :
    (L ++ p :: T).get? (L.length + 1 + n) = T.get? n := by
  rw [List.get?_append_right (by omega : L.length ≤ L.length + 1 + n)]
  have h : L.length + 1 + n - L.length = n + 1 := by omega
  rw [h]
  rfl

theorem pairIdx_cons (P Q : (Nat × Dict) → Prop) (b : Nat × Dict)
    (bs : List (Nat × Dict)) :
    pairIdx P Q (b :: bs) ↔
      (P b ∧ ∃ y ∈ bs, Q y) ∨ pairIdx P Q bs := by
  constructor
  · rintro ⟨i, j, x, y, hij, hx, hy, hPx, hQy⟩
    cases i with
    | zero =>
        have hxb : x = b := by
          have h0 : some b = some x := hx
          injection h0 with h0
          exact h0.symm
        cases j with
        | zero => omega
        | succ j' =>
            left
            refine ⟨hxb ▸ hPx, y, List.get?_mem (by simpa using hy), hQy⟩
    | succ i' =>
        cases j with
        | zero => omega
        | succ j' =>
            right
            exact ⟨i', j', x, y, by omega, by simpa using hx,
              by simpa using hy, hPx, hQy⟩
  · rintro (⟨hPb, y, hy, hQy⟩ | ⟨i, j, x, y, hij, hx, hy, hPx, hQy⟩)
    · obtain ⟨n, hn⟩ := List.mem_iff_get?.1 hy
      exact ⟨0, n + 1, b, y, by omega, rfl, by simpa using hn, hPb, hQy⟩
    · exact ⟨i + 1, j + 1, x, y, by omega, by simpa using hx,
        by simpa using hy, hPx, hQy⟩

theorem truthy_of_finalFlag (v : PyVal) (h : valFinalFlag v = true) :
    valTruthy v = true := by
  cases v <;> first | rfl | simp [valFinalFlag] at h

theorem walkFinal_armed_iff (k : String) (bases : List (Nat × Dict)) :
    (∃ e, walkFinal k bases true = .error e) ↔
      ∃ p ∈ bases, truthyDefD p k := by
  induction bases with
  | nil => simp [walkFinal]
  | cons p rest ih =>
      obtain ⟨bid, d⟩ := p
      rw [walkFinal]
      cases hd : dictGet d k with
      | none =>
          simp only [hd]
          rw [ih]
          constructor
          · rintro ⟨q, hq, hqt⟩
            exact ⟨q, List.mem_cons_of_mem _ hq, hqt⟩
          · rintro ⟨q, hq, hqt⟩
            rcases List.mem_cons.1 hq with rfl | hq
            · obtain ⟨v, hv, -⟩ := hqt
              rw [hd] at hv
              exact absurd hv (by simp)
            · exact ⟨q, hq, hqt⟩
      | some v =>
          simp only [hd]
          by_cases ht : valTruthy v = false
          · rw [if_pos ht]
            rw [ih]
            constructor
            · rintro ⟨q, hq, hqt⟩
              exact ⟨q, List.mem_cons_of_mem _ hq, hqt⟩
            · rintro ⟨q, hq, hqt⟩
              rcases List.mem_cons.1 hq with rfl | hq
              · obtain ⟨v', hv', hvt⟩ := hqt
                rw [hd] at hv'
                injection hv' with hv'
                rw [← hv'] at hvt
                rw [hvt] at ht
                exact absurd ht (by simp)
              · exact ⟨q, hq, hqt⟩
          · have ht' : valTruthy v = true := by
              revert ht
              cases valTruthy v <;> simp
            rw [if_neg ht]
            exact iff_of_true ⟨.cannotOverrideFinal k bid, by simp⟩
              ⟨(bid, d), List.mem_cons_self _ _, ⟨v, hd, ht'⟩⟩

theorem walkFinal_unarmed_iff (k : String) (bases : List (Nat × Dict)) :
    (∃ e, walkFinal k bases false = .error e) ↔
      pairIdx (fun p => finalDefD p k) (fun p => truthyDefD p k) bases := by
  induction bases with
  | nil =>
      constructor
      · rintro ⟨e, h⟩
        simp [walkFinal] at h
      · rintro ⟨i, j, x, y, -, hx, -⟩
        simp at hx
  | cons p rest ih =>
      obtain ⟨bid, d⟩ := p
      rw [pairIdx_cons, walkFinal]
      cases hd : dictGet d k with
      | none =>
          simp only [hd]
          rw [ih]
          have hnf : ¬ finalDefD (bid, d) k := by
            rintro ⟨v, hv, -⟩
            rw [hd] at hv
            exact absurd hv (by simp)
          constructor
          · exact Or.inr
          · rintro (⟨hf, -⟩ | h)
            · exact absurd hf hnf
            · exact h
      | some v =>
          simp only [hd]
          by_cases ht : valTruthy v = false
          · rw [if_pos ht]
            rw [ih]
            have hnf : ¬ finalDefD (bid, d) k := by
              rintro ⟨v', hv', hfl⟩
              rw [hd] at hv'
              injection hv' with hv'
              rw [← hv'] at hfl
              rw [truthy_of_finalFlag _ hfl] at ht
              exact absurd ht (by simp)
            constructor
            · exact Or.inr
            · rintro (⟨hf, -⟩ | h)
              · exact absurd hf hnf
              · exact h
          · rw [if_neg ht]
            have hfalse : (false = true) = False := by simp
            rw [if_neg (by simp : ¬(false = true))]
            by_cases hf : valFinalFlag v = true
            · rw [hf, walkFinal_armed_iff]
              constructor
              · rintro ⟨q, hq, hqt⟩
                exact Or.inl ⟨⟨v, hd, hf⟩, q, hq, hqt⟩
              · rintro (⟨-, y, hy, hQy⟩ | hpair)
                · exact ⟨y, hy, hQy⟩
                · obtain ⟨i, j, x, y, hij, hx, hy, hPx, hQy⟩ := hpair
                  exact ⟨y, List.get?_mem hy, hQy⟩
            · have hf' : valFinalFlag v = false := by
                revert hf
                cases valFinalFlag v <;> simp
              rw [hf', ih]
              have hnf : ¬ finalDefD (bid, d) k := by
                rintro ⟨v', hv', hfl⟩
                rw [hd] at hv'
                injection hv' with hv'
                rw [← hv'] at hfl
                rw [hfl] at hf'
                exact absurd hf' (by simp)
              constructor
              · exact Or.inr
              · rintro (⟨hfx, -⟩ | h)
                · exact absurd hfx hnf
                · exact h

theorem goFinalKeys_err_iff (io : Option PyClass) (C : PyClass)
    (ks : List String) :
    (∃ e, goFinalKeys io C ks = .error e) ↔
      ∃ k ∈ ks, attrCallable (getattrOpt C k) = true ∧
        (∃ e, walkFinal k (finalChain io C) false = .error e) := by
  induction ks with
  | nil =>
      constructor
      · rintro ⟨e, h⟩
        simp [goFinalKeys] at h
      · rintro ⟨k, hk, -⟩
        simp at hk
  | cons a ks ih =>
      rw [goFinalKeys]
      by_cases hc : attrCallable (getattrOpt C a) = false
      · rw [if_pos hc]
        rw [ih]
        constructor
        · rintro ⟨k, hk, hcal, hw⟩
          exact ⟨k, List.mem_cons_of_mem _ hk, hcal, hw⟩
        · rintro ⟨k, hk, hcal, hw⟩
          rcases List.mem_cons.1 hk with rfl | hk
          · rw [hcal] at hc
            exact absurd hc (by simp)
          · exact ⟨k, hk, hcal, hw⟩
      · have hc' : attrCallable (getattrOpt C a) = true := by
          revert hc
          cases attrCallable (getattrOpt C a) <;> simp
        rw [if_neg hc]
        cases hw : walkFinal a (finalChain io C) false with
        | ok u =>
            cases u
            rw [ih]
            constructor
            · rintro ⟨k, hk, hcal, hwk⟩
              exact ⟨k, List.mem_cons_of_mem _ hk, hcal, hwk⟩
            · rintro ⟨k, hk, hcal, hwk⟩
              rcases List.mem_cons.1 hk with rfl | hk
              · obtain ⟨e, he⟩ := hwk
                rw [hw] at he
                exact absurd he (by simp)
              · exact ⟨k, hk, hcal, hwk⟩
        | error e' =>
            exact iff_of_true ⟨e', rfl⟩
              ⟨a, List.mem_cons_self _ _, hc', ⟨e', hw⟩⟩

theorem lookupMro_split (L : List (Nat × Dict)) (k : String) (v : PyVal)
    (h : lookupMro L k = some v) :
    ∃ M1 p M2, L = M1 ++ p :: M2 ∧ dictGet p.2 k = some v ∧
      ∀ q ∈ M1, dictGet q.2 k = Option.none := by
  induction L with
  | nil => simp [lookupMro] at h
  | cons p rest ih =>
      obtain ⟨bid, d⟩ := p
      rw [lookupMro] at h
      revert h
      cases hd : dictGet d k with
      | some w =>
          intro h
          injection h with h
          refine ⟨[], (bid, d), rest, rfl, ?_, by simp⟩
          rw [hd, h]
      | none =>
          intro h
          obtain ⟨M1, q, M2, hsplit, hq, hnone⟩ := ih h
          refine ⟨(bid, d) :: M1, q, M2, by rw [hsplit]; rfl, hq, ?_⟩
          intro r hr
          rcases List.mem_cons.1 hr with rfl | hr
          · exact hd
          · exact hnone r hr

theorem resolved_last_def (io : Option PyClass) (C : PyClass) (k : String)
    (hc : attrCallable (getattrOpt C k) = true) :
    ∃ r p, (finalChain io C).get? r = some p ∧ truthyDefD p k ∧
      ∀ j q, (finalChain io C).get? j = some q → definesD q k → j ≤ r := by
  have hres : ∃ v, lookupMro (mroC C) k = some v ∧ valTruthy v = true := by
    revert hc
    unfold getattrOpt
    cases hlk : lookupMro (mroC C) k with
    | none =>
        intro hc
        simp [attrCallable] at hc
    | some v =>
        intro hc
        refine ⟨v, rfl, ?_⟩
        cases v <;> first | rfl | simp [bindVal, attrCallable] at hc
  obtain ⟨v, hlk, htv⟩ := hres
  obtain ⟨M1, p, M2, hsplit, hp, hnone⟩ := lookupMro_split _ _ _ hlk
  have hrev : (mroC C).reverse = M2.reverse ++ p :: M1.reverse := by
    rw [hsplit]
    simp
  have hch : ∃ Lpre, finalChain io C = Lpre ++ p :: M1.reverse := by
    unfold finalChain
    cases io with
    | none =>
        refine ⟨M2.reverse, ?_⟩
        dsimp only
        exact hrev
    | some i =>
        dsimp only
        by_cases hmem : ((mroC C).reverse.any (fun q => q.1 == i.id)) = true
        · rw [if_pos hmem]
          exact ⟨M2.reverse, hrev⟩
        · rw [if_neg hmem]
          refine ⟨(i.id, i.dict) :: M2.reverse, ?_⟩
          rw [hrev]
          rfl
  obtain ⟨Lpre, hchain⟩ := hch
  refine ⟨Lpre.length, p, ?_, ⟨v, hp, htv⟩, ?_⟩
  · rw [hchain]
    exact get?_append_len _ _ _
  · intro j q hjq hdef
    by_contra hgt
    push_neg at hgt
    have hn : ∃ n, j = Lpre.length + 1 + n := ⟨j - Lpre.length - 1, by omega⟩
    obtain ⟨n, rfl⟩ := hn
    rw [hchain, get?_append_after] at hjq
    have hqmem : q ∈ M1.reverse := List.get?_mem hjq
    rw [List.mem_reverse] at hqmem
    obtain ⟨w, hw⟩ := hdef
    rw [hnone q hqmem] at hw
    exact absurd hw (by simp)

/-- C2: the Final Checker raises `CannotOverrideFinal` iff some callable
attribute name visible on the candidate has, in the walked chain (the
deduplicated reversed MRO, with the interface prepended as most ancestral
when supplied and not already in the chain), a class that directly defines
it under the final flag strictly before another class that also directly
defines it — this holds for any candidate, so redefinitions introduced by
unrelated mixins are caught even without inheritance from the interface. -/
theorem C2_final_checker (io : Option PyClass) (C : PyClass) :
    (∃ k b, check_final io C = .error (.cannotOverrideFinal k b)) ↔
      ∃ k, k ∈ dirC C ∧ attrCallable (getattrOpt C k) = true ∧
        pairIdx (fun p => finalDefD p k) (fun p => definesD p k)
          (finalChain io C) := by
  constructor
  · rintro ⟨k, b, h⟩
    have hex : ∃ e, goFinalKeys io C (dirC C) = .error e := ⟨_, h⟩
    obtain ⟨k', hk', hcal, hwalk⟩ := (goFinalKeys_err_iff io C (dirC C)).1 hex
    have hpair := (walkFinal_unarmed_iff k' (finalChain io C)).1 hwalk
    refine ⟨k', hk', hcal, ?_⟩
    obtain ⟨i, j, x, y, hij, hx, hy, hPx, hQy⟩ := hpair
    obtain ⟨w, hw, -⟩ := hQy
    exact ⟨i, j, x, y, hij, hx, hy, hPx, ⟨w, hw⟩⟩
  · rintro ⟨k, hk, hcal, i, j, x, y, hij, hx, hy, hPx, hQy⟩
    obtain ⟨r, p, hr, hpt, hmax⟩ := resolved_last_def io C k hcal
    have hjr : j ≤ r := hmax j y hy hQy
    have hir : i < r := lt_of_lt_of_le hij hjr
    have hwalk := (walkFinal_unarmed_iff k (finalChain io C)).2
      ⟨i, r, x, p, hir, hx, hr, hPx, hpt⟩
    obtain ⟨e, he⟩ := (goFinalKeys_err_iff io C (dirC C)).2
      ⟨k, hk, hcal, hwalk⟩
    obtain ⟨k', b, hb⟩ := goFinalKeys_err_shape io C (dirC C) e he
    refine ⟨k', b, ?_⟩
    show goFinalKeys io C (dirC C) = _
    rw [he, hb]
